import Mathlib

/-!
Verification of the `handle` package (github.com/michaelmacinnis/handle).

The repository bundles several revisions of the same small Go package:

* `src/handle.go` (first document): `Error` / `Errorf` build a `check`
  closure and a `handle` closure through `errorf`, which threads a
  `wrapper` (`unwrapped` / `rewrapped`).  This revision forwards its
  variadic `args` bare (without `...`) at two call sites, so the argument
  slice is re-nested at each call.
* `src/handle.go` (second document): the `Escape` object with an `On`
  method guarded by the `pnc` flag, a `hatch` finalizer that runs `fns`
  in reverse order while the bound error stays non-nil, and `Chain`.
* `src/unnamed/part_000` (third document): `Error` / `Errorf` / `Func`
  where the finalizer runs `fn` whenever the bound error is non-nil.
* `src/unnamed/part_001` (first document): `Error(err, fns...)` whose
  finalizer runs `fns` in forward order after a single non-nil test.

Go errors are modelled by `GoErr`, panics by `PanicVal`, `fmt.Errorf`
by `fmtErrorf` over `FmtArg` argument lists, and each revision's
closures by explicit state-passing functions below.  A `none` slot or
argument stands for Go's nil.
-/

namespace Handle

/-- A Go error value.  `base` is an `errors.New` value (the numeric tag
models object identity), `wrapped` is a `fmt.Errorf` value carrying a
`%w` cause, and `failure` is the package's internal escape marker
`failure` wrapping the triggering error. -/
inductive GoErr : Type where
  | base : Nat → String → GoErr
  | wrapped : String → GoErr → GoErr
  | failure : GoErr → GoErr
deriving DecidableEq, Repr

/-- The message of an error: `Error()` in Go.  The `failure` type of the
Escape and part_000/part_001 revisions reports itself as an unhandled
error wrapping its payload's message. -/
def errMsg : GoErr → String
  | GoErr.base _ m => m
  | GoErr.wrapped m _ => m
  | GoErr.failure e => "unhandled error: " ++ errMsg e

/-- Whether an error value's dynamic type is the internal `failure`
marker: the Go type assertion `(*err).(failure)`. -/
def isFailure : GoErr → Bool
  | GoErr.failure _ => true
  | _ => false

/-- A value carried by a Go panic: either an error value (the package
panics with `failure{...}` values) or a string (its escalation panics,
or a foreign panic). -/
inductive PanicVal : Type where
  | err : GoErr → PanicVal
  | str : String → PanicVal
deriving DecidableEq, Repr

/-- How `%v` renders what `recover()` returned: an error prints its
message, a plain string prints itself, and a nil recovery prints
`<nil>`. -/
def recoverText : Option PanicVal → String
  | none => "<nil>"
  | some (PanicVal.err e) => errMsg e
  | some (PanicVal.str s) => s

/-- One element of a Go `...interface\x7b\x7d` argument list: a string, an
error, a nested argument slice (what a bare variadic forward produces),
or a nil interface value. -/
inductive FmtArg : Type where
  | s : String → FmtArg
  | e : GoErr → FmtArg
  | list : List FmtArg → FmtArg
  | nilArg : FmtArg

mutual

/-- How `fmt` renders one argument with `%s`/`%v`: strings print bare,
errors print their message, slices print bracketed and space-separated,
nil prints `<nil>`. -/
def argText : FmtArg → String
  | FmtArg.s v => v
  | FmtArg.e v => errMsg v
  | FmtArg.list xs => "[" ++ argTextList xs ++ "]"
  | FmtArg.nilArg => "<nil>"

/-- Space-separated rendering of a slice's elements. -/
def argTextList : List FmtArg → String
  | [] => ""
  | [a] => argText a
  | a :: rest => argText a ++ " " ++ argTextList rest

end

/-- Comma-separated rendering used by the `%!(EXTRA ...)` diagnostic. -/
def argTextComma : List FmtArg → String
  | [] => ""
  | [a] => argText a
  | a :: rest => argText a ++ ", " ++ argTextComma rest

/-- The format interpreter behind `fmt.Errorf`: walks the format,
substituting `%s` and `%v` with the next argument's text and `%w` with
the next argument's message while collecting the errors wrapped by `%w`.
Leftover arguments yield the `%!(EXTRA ...)` diagnostic and a verb with
a missing or mistyped operand yields a `%!` diagnostic and wraps
nothing, as `fmt` does. -/
def substFmt : List Char → List FmtArg → String × List GoErr
  | [], [] => ("", [])
  | [], a :: rest => ("%!(EXTRA " ++ argTextComma (a :: rest) ++ ")", [])
  | '%' :: 'w' :: cs, FmtArg.e e :: rest =>
      let r := substFmt cs rest
      (errMsg e ++ r.1, e :: r.2)
  | '%' :: 'w' :: cs, a :: rest =>
      let r := substFmt cs rest
      ("%!w(" ++ argText a ++ ")" ++ r.1, r.2)
  | '%' :: 'w' :: cs, [] =>
      let r := substFmt cs []
      ("%!w(MISSING)" ++ r.1, r.2)
  | '%' :: 's' :: cs, a :: rest =>
      let r := substFmt cs rest
      (argText a ++ r.1, r.2)
  | '%' :: 's' :: cs, [] =>
      let r := substFmt cs []
      ("%!s(MISSING)" ++ r.1, r.2)
  | '%' :: 'v' :: cs, a :: rest =>
      let r := substFmt cs rest
      (argText a ++ r.1, r.2)
  | '%' :: 'v' :: cs, [] =>
      let r := substFmt cs []
      ("%!v(MISSING)" ++ r.1, r.2)
  | ['%'], _ => ("%", [])
  | '%' :: c :: cs, rest =>
      let r := substFmt cs rest
      ("%" ++ String.singleton c ++ r.1, r.2)
  | c :: cs, rest =>
      let r := substFmt cs rest
      (String.singleton c ++ r.1, r.2)

/-- `fmt.Errorf`: the formatted message, wrapping the `%w` operand as
its cause when there is exactly one. -/
def fmtErrorf (format : String) (args : List FmtArg) : GoErr :=
  let r := substFmt format.toList args
  match r.2 with
  | [e] => GoErr.wrapped r.1 e
  | _ => GoErr.base 0 r.1

/-- `errors.Is` restricted to the shapes this package builds: walk the
`%w` cause chain looking for the target. -/
def errIs : GoErr → GoErr → Bool
  | GoErr.wrapped m c, target =>
      decide (GoErr.wrapped m c = target) || errIs c target
  | t, target => decide (t = target)

/-- `errors.Unwrap`: only `fmt.Errorf` values built with `%w` unwrap. -/
def unwrapErr : GoErr → Option GoErr
  | GoErr.wrapped _ c => some c
  | _ => none

/-! ## The check/handle revision of src/handle.go (its first document)

`errorf` returns a check closure and a handle closure over the bound
error `*err`; the handle closure applies a `wrapper`.  A state holds the
bound error slot and the panic in flight (what `recover()` would
return); `none` is Go's nil. -/

/-- The state one check/handle activation acts on: the bound error slot
`*err` and the panic currently unwinding, if any. -/
structure CState : Type where
  slot : Option GoErr
  panicking : Option PanicVal
deriving DecidableEq, Repr

/-- The check closure of `errorf` (identical in part_000 and part_001):
a nil error is ignored, a non-nil one is stored in the slot wrapped as
`failure` and panicked with. -/
def check (s : CState) (ce : Option GoErr) : CState :=
  match ce with
  | none => s
  | some e =>
      { slot := some (GoErr.failure e),
        panicking := some (PanicVal.err (GoErr.failure e)) }

/-- Passing a `[]interface\x7b\x7d` value to a variadic parameter without
`...` makes it the single element of the fresh argument slice. -/
def goVariadicPass (args : List FmtArg) : List FmtArg :=
  [FmtArg.list args]

/-- `rewrapped`: wrap the failure's payload with the format, keeping it
as the `%w` cause.  The first parameter is the failure's payload
(`f.error`). -/
def rewrapped (f : GoErr) (format : String) (args : List FmtArg) : GoErr :=
  fmtErrorf (format ++ ": %w") (args ++ [FmtArg.e f])

/-- `unwrapped`: return the failure's payload unmodified. -/
def unwrapped (f : GoErr) (format : String) (args : List FmtArg) : GoErr :=
  f

/-- The handle closure `errorf` returns.  If the slot holds a `failure`,
replace it with `w(f, format, args)` — note the bare `args`, nested once
more by the variadic call — then recover; if what was recovered is not
that same failure, panic with the string `unexpected error`.  A slot
that holds no failure leaves the state untouched, so a panic in flight
passes through. -/
def errorfHandle (w : GoErr → String → List FmtArg → GoErr)
    (format : String) (args : List FmtArg) (s : CState) : CState :=
  match s.slot with
  | some (GoErr.failure f) =>
      let slot' := some (w f format (goVariadicPass args))
      match s.panicking with
      | some (PanicVal.err (GoErr.failure rf)) =>
          if rf = f then { slot := slot', panicking := none }
          else { slot := slot',
                 panicking := some (PanicVal.str ("unexpected error")) }
      | _ => { slot := slot',
               panicking := some (PanicVal.str ("unexpected error")) }
  | _ => s

/-- The handle closure `Errorf` of this revision builds:
`errorf(rewrapped, err, format, args)` passes `args` bare, nesting it
once before `errorfHandle` nests it again at the `w` call. -/
def v1ErrorfHandle (format : String) (args : List FmtArg) :
    CState → CState :=
  errorfHandle rewrapped format (goVariadicPass args)

/-- The handle closure `Error` of this revision builds:
`errorf(unwrapped, err, "", nil)`; the nil argument list becomes the
single nil element of the variadic slice. -/
def v1ErrorHandle : CState → CState :=
  errorfHandle unwrapped ("") [FmtArg.nilArg]

/-! ## Chain actions and the two finalizer loops

A chain action is a `func()` reading and writing the bound error; its
effect on the slot is a function, and the numeric id lets runs record
which actions fired and in what order. -/

/-- One registered cleanup action: its effect on the bound error slot
and an id used only to trace execution order. -/
structure ChainAct : Type where
  id : Nat
  eff : Option GoErr → Option GoErr

/-- `handle.Chain` semantics applied to a list of actions in the order
given: each action runs only if the slot is non-nil at its turn (a nil
slot skips the action but later actions are still examined, as each
deferred `Chain` call tests `*err` itself).  Returns the final slot and
the ids that fired, in firing order. -/
def runChains : List ChainAct → Option GoErr → Option GoErr × List Nat
  | [], s => (s, [])
  | _ :: cs, none => runChains cs none
  | c :: cs, some e =>
      let r := runChains cs (c.eff (some e))
      (r.1, c.id :: r.2)

/-- The Escape revision's hatch loop
`for i := len(s.fns) - 1; *s.err != nil && i >= 0; i--`, applied to the
already-reversed list: the loop stops outright once the slot is nil. -/
def runFns : List ChainAct → Option GoErr → Option GoErr × List Nat
  | _, none => (none, [])
  | [], some e => (some e, [])
  | c :: cs, some e =>
      let r := runFns cs (c.eff (some e))
      (r.1, c.id :: r.2)

/-- The part_001 finalizer loop `for _, fn := range fns`: every action
runs, in forward order, with no per-action test. -/
def fnsForward : List ChainAct → Option GoErr → Option GoErr × List Nat
  | [], s => (s, [])
  | c :: cs, s =>
      let r := fnsForward cs (c.eff s)
      (r.1, c.id :: r.2)

/-! ## The Escape revision of src/handle.go (its second document)

`Error` returns an `Escape` object and a hatch closure.  `On` writes
the slot and panics only when the `pnc` flag is still false; the hatch
recovers when the flag is set and then runs `fns` in reverse order while
the slot stays non-nil.  An activation is run as: body events until a
panic starts unwinding, then the deferred items latest-first, then the
hatch (deferred first, so run last). -/

/-- The state of one Escape activation.  `raised` counts the abrupt
unwinds `On` started and `hatchRuns` the hatch executions; `trace`
records the chain actions that fired. -/
structure RunState : Type where
  slot : Option GoErr
  pnc : Bool
  panicking : Option PanicVal
  raised : Nat
  trace : List Nat
  hatchRuns : Nat

/-- `Escape.On`: a nil error is a no-op; a non-nil error is written to
the slot, and only if no panic was triggered before (`pnc` false) the
flag is set and `failure\x7bce\x7d` is panicked. -/
def onStep (s : RunState) (ce : Option GoErr) : RunState :=
  match ce with
  | none => s
  | some e =>
      let s1 := { s with slot := some e }
      if s.pnc then s1
      else { s1 with
              pnc := true,
              panicking := some (PanicVal.err (GoErr.failure e)),
              raised := s.raised + 1 }

/-- A body event: an `escape.On(ce)` call or a direct assignment to the
bound error (a normal `return someErr`). -/
inductive Ev : Type where
  | on : Option GoErr → Ev
  | assign : Option GoErr → Ev

/-- Run the activation body in order; once a panic is unwinding the
remaining body is skipped. -/
def runBody : List Ev → RunState → RunState
  | [], s => s
  | ev :: evs, s =>
      match s.panicking with
      | some _ => s
      | none =>
          match ev with
          | Ev.on ce => runBody evs (onStep s ce)
          | Ev.assign e => runBody evs { s with slot := e }

/-- A deferred item registered during the body: a `handle.Chain(&err,
fn)` registration, or a deferred cleanup that itself calls
`escape.On(ce)`. -/
inductive DefItem : Type where
  | chain : ChainAct → DefItem
  | onCall : Option GoErr → DefItem

/-- Execute one deferred item.  Deferred functions run during unwinding
too; `Chain` fires its action only if the slot is non-nil. -/
def execDefer : DefItem → RunState → RunState
  | DefItem.chain c, s =>
      match s.slot with
      | none => s
      | some e =>
          { s with slot := c.eff (some e), trace := s.trace ++ [c.id] }
  | DefItem.onCall ce, s => onStep s ce

/-- Run the deferred items; the list is in registration order and Go
defers run last-registered first. -/
def runDefers : List DefItem → RunState → RunState
  | [], s => s
  | d :: ds, s => execDefer d (runDefers ds s)

/-- The hatch closure: if `pnc` is set, clear it and recover whatever
panic is in flight; then run `fns` in reverse order while the slot is
non-nil. -/
def hatch (fns : List ChainAct) (s : RunState) : RunState :=
  let s1 :=
    if s.pnc then { s with pnc := false, panicking := none } else s
  let r := runFns fns.reverse s1.slot
  { s1 with
      slot := r.1,
      trace := s1.trace ++ r.2,
      hatchRuns := s1.hatchRuns + 1 }

/-- One whole activation with the hatch deferred first: body, then the
other deferred items (latest first), then the hatch. -/
def runActivation (body : List Ev) (defs : List DefItem)
    (fns : List ChainAct) : RunState :=
  let s0 : RunState :=
    { slot := none, pnc := false, panicking := none,
      raised := 0, trace := [], hatchRuns := 0 }
  hatch fns (runDefers defs (runBody body s0))

/-- The wrap closure the Escape revision's `Errorf` passes to `Error`:
`*err = fmt.Errorf(format+": %w", append(args, *err)...)`, with the
arguments spread correctly. -/
def escWrapFn (format : String) (args : List FmtArg) :
    Option GoErr → Option GoErr
  | some cur => some (fmtErrorf (format ++ ": %w") (args ++ [FmtArg.e cur]))
  | none => none

/-! ## The part_000 Func revision (third document of part_000)

`Func(err, fn)` returns `check(err)` and `handle(err, fn)`: the
finalizer unwraps a `failure` in the slot (escalating with a formatted
panic if the recovered value is not that failure) and then runs `fn`
whenever the slot is non-nil, whether it was set by check or by a
normal return. -/

/-- The `handle` closure of the part_000 Func revision. -/
def part000Handle (fn : Option GoErr → Option GoErr) (s : CState) :
    CState :=
  match s.slot with
  | some (GoErr.failure f) =>
      match s.panicking with
      | some (PanicVal.err (GoErr.failure rf)) =>
          if rf = f then { slot := fn (some f), panicking := none }
          else
            { slot := some (GoErr.failure f),
              panicking := some (PanicVal.str
                ("unexpected panic "
                  ++ recoverText (some (PanicVal.err (GoErr.failure rf)))
                  ++ ", while handling " ++ errMsg f)) }
      | r =>
          { slot := some (GoErr.failure f),
            panicking := some (PanicVal.str
              ("unexpected panic " ++ recoverText r
                ++ ", while handling " ++ errMsg f)) }
  | none => s
  | some e =>
      { s with slot := fn (some e) }

/-! ## The part_001 revision (first document of part_001)

`Error(err, fns...)` returns `check(err)` and `handle(err, fns...)`:
the finalizer unwraps a `failure` as above and then, after a single
`*err != nil` test, runs every fn in forward order. -/

/-- The `handle` closure of the part_001 revision; also returns the ids
of the fns that ran, in order. -/
def part001Handle (fns : List ChainAct) (s : CState) :
    CState × List Nat :=
  match s.slot with
  | some (GoErr.failure f) =>
      match s.panicking with
      | some (PanicVal.err (GoErr.failure rf)) =>
          if rf = f then
            let r := fnsForward fns (some f)
            ({ slot := r.1, panicking := none }, r.2)
          else
            ({ slot := some (GoErr.failure f),
               panicking := some (PanicVal.str
                 ("unexpected panic "
                   ++ recoverText (some (PanicVal.err (GoErr.failure rf)))
                   ++ ", while handling " ++ errMsg f)) }, [])
      | r =>
          ({ slot := some (GoErr.failure f),
             panicking := some (PanicVal.str
               ("unexpected panic " ++ recoverText r
                 ++ ", while handling " ++ errMsg f)) }, [])
  | none => (s, [])
  | some e =>
      let r := fnsForward fns (some e)
      ({ s with slot := r.1 }, r.2)

/-! ## Slot pointers: the nil-substitution of the constructors

The constructors accept a pointer to the caller's error variable and
substitute an internally allocated one when given nil.  Pointers are
indices into a heap of error cells; dereferencing is `List.get?`, which
fails (returns `none`) exactly on an invalid pointer. -/

/-- The heap of error variables: cell `i` holds the value of one
`error` variable. -/
structure Heap : Type where
  cells : List (Option GoErr)
deriving DecidableEq, Repr

/-- The Escape revision's `Error(err, fns...)` pointer logic:
`if err == nil \x7b err = &shared \x7d` — allocate a fresh shared cell when
given no pointer.  Returns the possibly grown heap and the slot pointer
the escape object and hatch capture. -/
def escErrorCtor (h : Heap) (err : Option Nat) : Heap × Nat :=
  match err with
  | none => ({ cells := h.cells ++ [none] }, h.cells.length)
  | some p => (h, p)

/-- The part_000 `Func(err, fn)` (and part_001 `Error`) pointer logic:
the same nil substitution with a fresh `shared` variable. -/
def funcCtor (h : Heap) (err : Option Nat) : Heap × Nat :=
  match err with
  | none => ({ cells := h.cells ++ [none] }, h.cells.length)
  | some p => (h, p)

/-- `Escape.On` against the heap: writing the slot dereferences the
captured pointer, which fails on an invalid one. -/
def heapOn (h : Heap) (p : Nat) (ce : Option GoErr) : Option Heap :=
  match ce with
  | none => some h
  | some e =>
      match h.cells[p]? with
      | none => none
      | some _ => some { cells := h.cells.set p (some e) }

/-- An action's effect never clears the slot: it maps a non-nil bound
error to a non-nil bound error. -/
def Preserves (f : Option GoErr → Option GoErr) : Prop :=
  ∀ x, x ≠ none → f x ≠ none

/-- A deferred item never clears the slot. -/
def DefPreserves (d : DefItem) : Prop :=
  ∀ s : RunState, s.slot ≠ none → (execDefer d s).slot ≠ none

/-- Whether the bound error slot holds the internal `failure` marker. -/
def slotIsFailure : Option GoErr → Bool
  | some (GoErr.failure _) => true
  | _ => false

/-! ## Helper lemmas -/

theorem runChains_none (cs : List ChainAct) :
    runChains cs none = (none, []) := by
  induction cs with
  | nil => rfl
  | cons c cs ih => simpa [runChains] using ih

theorem runFns_eq_runChains (cs : List ChainAct) (s : Option GoErr) :
    runFns cs s = runChains cs s := by
  induction cs generalizing s with
  | nil => cases s <;> simp [runFns, runChains]
  | cons c cs ih =>
      cases s with
      | none => simp [runFns, runChains_none]
      | some e => simp [runFns, runChains, ih]

theorem runChains_all_fire (cs : List ChainAct) (s : Option GoErr)
    (hpres : ∀ c ∈ cs, Preserves c.eff) (hs : s ≠ none) :
    (runChains cs s).2 = cs.map ChainAct.id ∧ (runChains cs s).1 ≠ none := by
  induction cs generalizing s with
  | nil => exact ⟨rfl, hs⟩
  | cons c cs ih =>
      cases s with
      | none => exact absurd rfl hs
      | some e =>
          have h1 : c.eff (some e) ≠ none :=
            hpres c (List.mem_cons_self c cs) (some e) (by simp)
          have ih2 := ih (c.eff (some e))
            (fun c' hc' => hpres c' (List.mem_cons_of_mem c hc')) h1
          refine ⟨?_, ?_⟩
          · simp [runChains, ih2.1]
          · simpa [runChains] using ih2.2

theorem runChains_suppress (xs : List ChainAct) (k : ChainAct)
    (ys : List ChainAct) (e : GoErr)
    (hpres : ∀ c ∈ xs, Preserves c.eff) (hk : ∀ x, k.eff x = none) :
    (runChains (xs ++ k :: ys) (some e)).2 = xs.map ChainAct.id ++ [k.id] := by
  induction xs generalizing e with
  | nil => simp [runChains, hk, runChains_none]
  | cons a xs ih =>
      have h1 : a.eff (some e) ≠ none :=
        hpres a (List.mem_cons_self a xs) (some e) (by simp)
      obtain ⟨e', he'⟩ := Option.ne_none_iff_exists'.mp h1
      have ih2 := ih e' (fun c' hc' => hpres c' (List.mem_cons_of_mem a hc'))
      simp [runChains, he', ih2]

theorem fnsForward_ids (cs : List ChainAct) (s : Option GoErr) :
    (fnsForward cs s).2 = cs.map ChainAct.id := by
  induction cs generalizing s with
  | nil => rfl
  | cons c cs ih => simp [fnsForward, ih]

theorem runDefers_pres (ds : List DefItem) (s : RunState)
    (hds : ∀ d ∈ ds, DefPreserves d) (hs : s.slot ≠ none) :
    (runDefers ds s).slot ≠ none := by
  induction ds with
  | nil => exact hs
  | cons d ds ih =>
      exact hds d (List.mem_cons_self d ds) _
        (ih (fun d' hd' => hds d' (List.mem_cons_of_mem d hd')))

theorem runDefers_chains (regs : List ChainAct) (s : RunState)
    (hpres : ∀ c ∈ regs, Preserves c.eff) (hs : s.slot ≠ none) :
    (runDefers (regs.map DefItem.chain) s).slot ≠ none ∧
      (runDefers (regs.map DefItem.chain) s).trace
        = s.trace ++ (regs.reverse).map ChainAct.id := by
  induction regs with
  | nil => simpa [runDefers] using hs
  | cons c regs ih =>
      have ih2 := ih (fun c' hc' => hpres c' (List.mem_cons_of_mem c hc'))
      obtain ⟨e', he'⟩ :=
        Option.ne_none_iff_exists'.mp ih2.1
      have hfire : c.eff (some e') ≠ none :=
        hpres c (List.mem_cons_self c regs) (some e') (by simp)
      constructor
      · simpa [runDefers, execDefer, he'] using hfire
      · simp [runDefers, execDefer, he', ih2.2]

/-! ## The claims -/

/-- Claim C1: calling the guard twice with non-nil errors in one
Escape-revision activation produces exactly one abrupt unwind.  In an
activation that calls `On e1` in its body and `On e2` from a nested
deferred cleanup, only one panic is raised, the hatch runs exactly once,
no panic escapes, and the slot ends holding `e2`; and in general a call
of `On` with a non-nil error while the in-flight flag is set only
updates the slot, leaving everything else (flag, panic, raise count)
unchanged. -/
theorem escape_second_on_no_unwind :
    (∀ e1 e2 : GoErr,
      (runActivation [Ev.on (some e1)] [DefItem.onCall (some e2)] []).raised
          = 1 ∧
        (runActivation [Ev.on (some e1)] [DefItem.onCall (some e2)]
            []).hatchRuns = 1 ∧
        (runActivation [Ev.on (some e1)] [DefItem.onCall (some e2)]
            []).panicking = none ∧
        (runActivation [Ev.on (some e1)] [DefItem.onCall (some e2)] []).slot
          = some e2) ∧
    (∀ (s : RunState) (e : GoErr), s.pnc = true →
      onStep s (some e) = { s with slot := some e }) := by
  constructor
  · intro e1 e2
    exact ⟨rfl, rfl, rfl, rfl⟩
  · intro s e h
    simp [onStep, h]

/-- Witness for C1: the flag-already-set case at a concrete state. -/
theorem escape_second_on_no_unwind_witness :
    onStep
        { slot := none, pnc := true, panicking := none,
          raised := 1, trace := [], hatchRuns := 0 }
        (some (GoErr.base 0 ("a")))
      = { slot := some (GoErr.base 0 ("a")), pnc := true, panicking := none,
          raised := 1, trace := [], hatchRuns := 0 } :=
  escape_second_on_no_unwind.2 _ _ rfl

/-- Counterexample to C2 as stated: in the check/handle revision, a
foreign panic (the string boom) intercepted while the finalizer is
handling its own escape is not re-raised unchanged — the finalizer
panics with the string `unexpected error` instead, so an outer handler
does not observe the original panic value. -/
theorem foreign_panic_value_replaced :
    (errorfHandle rewrapped ("f") []
        { slot := some (GoErr.failure (GoErr.base 0 ("x"))),
          panicking := some (PanicVal.str ("boom")) }).panicking
      = some (PanicVal.str ("unexpected error")) ∧
    some (PanicVal.str ("unexpected error"))
      ≠ some (PanicVal.str ("boom")) := by
  exact ⟨rfl, by decide⟩

/-- Claim C2 as amended: a foreign unwind intercepted by the
check/handle finalizer while its own escape is pending is escalated,
never swallowed and never returned from normally, but by raising a
replacement panic carrying the string `unexpected error` rather than
the original panic value; a foreign unwind arriving when no own escape
is pending passes through the finalizer unchanged; and the Escape
revision's hatch, by contrast, recovers (absorbs) whatever panic is in
flight whenever its in-flight flag is set. -/
theorem foreign_panic_escalated_replaced :
    (∀ (f : GoErr) (format : String) (args : List FmtArg)
        (r : Option PanicVal),
      r ≠ some (PanicVal.err (GoErr.failure f)) →
      (errorfHandle rewrapped format args
          { slot := some (GoErr.failure f), panicking := r }).panicking
        = some (PanicVal.str ("unexpected error"))) ∧
    (∀ (w : GoErr → String → List FmtArg → GoErr) (format : String)
        (args : List FmtArg) (s : CState),
      slotIsFailure s.slot = false →
      errorfHandle w format args s = s) ∧
    (∀ (fns : List ChainAct) (s : RunState), s.pnc = true →
      (hatch fns s).panicking = none) := by
  refine ⟨?_, ?_, ?_⟩
  · intro f format args r hr
    cases r with
    | none => rfl
    | some pv =>
        cases pv with
        | str m => rfl
        | err ge =>
            cases ge with
            | base n m => rfl
            | wrapped m c => rfl
            | failure rf =>
                have hne : rf ≠ f := fun h => hr (by rw [h])
                simp [errorfHandle, hne]
  · intro w format args s hs
    obtain ⟨sl, pk⟩ := s
    cases sl with
    | none => rfl
    | some e =>
        cases e with
        | base n m => rfl
        | wrapped m c => rfl
        | failure f => simp [slotIsFailure] at hs
  · intro fns s h
    simp [hatch, h]

/-- Witness for C2's amended claim: escalation at a concrete state with
no panic in flight. -/
theorem foreign_panic_escalated_replaced_witness :
    (errorfHandle rewrapped ("g") []
        { slot := some (GoErr.failure (GoErr.base 1 ("x"))),
          panicking := none }).panicking
      = some (PanicVal.str ("unexpected error")) :=
  foreign_panic_escalated_replaced.1 (GoErr.base 1 ("x")) ("g") [] none
    (by decide)

/-- Counterexample to C3 as stated: in the part_001 revision's
finalizer, the fns registered with Error run in forward registration
order after one non-nil test — here the first-registered action nils
the slot and the second still runs, so the firing order is 1 then 2,
not the claimed reverse order (2 then 1), and nilling suppresses
nothing. -/
theorem part001_forward_order :
    (part001Handle [⟨1, fun _ => none⟩, ⟨2, fun s => s⟩]
        (check { slot := none, panicking := none }
          (some (GoErr.base 0 ("e"))))).2 = [1, 2] ∧
    ([1, 2] : List Nat) ≠ [2, 1] := by
  exact ⟨rfl, by decide⟩

/-- Claim C3 as amended: in the Escape revision's hatch loop the
registered actions run in reverse registration order, each only while
the slot is still non-nil at its turn — in particular, when every
action preserves a non-nil slot all of them fire, latest registered
first, and an action that nils the slot suppresses every action
scheduled after it; the part_001 revision instead runs its fns in
forward registration order after a single non-nil test, all of them. -/
theorem chain_reverse_order_amended :
    (∀ (regs : List ChainAct) (e : GoErr),
      (∀ c ∈ regs, Preserves c.eff) →
      (runFns regs.reverse (some e)).2 = (regs.reverse).map ChainAct.id) ∧
    (∀ (xs : List ChainAct) (k : ChainAct) (ys : List ChainAct) (e : GoErr),
      (∀ c ∈ xs, Preserves c.eff) → (∀ x, k.eff x = none) →
      (runFns (xs ++ k :: ys) (some e)).2 = xs.map ChainAct.id ++ [k.id]) ∧
    (∀ (fns : List ChainAct) (e : GoErr),
      (part001Handle fns
          (check { slot := none, panicking := none } (some e))).2
        = fns.map ChainAct.id) := by
  refine ⟨?_, ?_, ?_⟩
  · intro regs e hpres
    rw [runFns_eq_runChains]
    exact (runChains_all_fire regs.reverse (some e)
      (fun c hc => hpres c (List.mem_reverse.mp hc)) (by simp)).1
  · intro xs k ys e hpres hk
    rw [runFns_eq_runChains]
    exact runChains_suppress xs k ys e hpres hk
  · intro fns e
    simp [part001Handle, check, fnsForward_ids]

/-- Witness for C3's amended claim: two slot-preserving actions fire in
reverse registration order. -/
theorem chain_reverse_order_amended_witness :
    (runFns (([⟨1, fun s => s⟩, ⟨2, fun s => s⟩] : List ChainAct)).reverse
        (some (GoErr.base 0 ("w")))).2
      = ((([⟨1, fun s => s⟩, ⟨2, fun s => s⟩] : List ChainAct)).reverse).map
          ChainAct.id :=
  chain_reverse_order_amended.1 [⟨1, fun s => s⟩, ⟨2, fun s => s⟩]
    (GoErr.base 0 ("w"))
    (by
      intro c hc x hx
      rcases List.mem_cons.mp hc with h | h
      · rw [h]; exact hx
      · rcases List.mem_cons.mp h with h2 | h2
        · rw [h2]; exact hx
        · cases h2)

/-- Claim C4, evaluated at the failing input: in the part_000 Func
revision the formatted wrap preserves the domain error as its cause
(errors.Is holds and one unwrap recovers it), but in the check/handle
revision of handle.go the bare variadic forwarding re-nests the
argument slice, so with a zero-argument format the appended `%w` verb
consumes the nested slice instead of the domain error and the final
error does not wrap it. -/
theorem errorf_wrap_round_trip_eval :
    ((part000Handle (escWrapFn ("copy(src, dst)") [])
        (check { slot := none, panicking := none }
          (some (GoErr.base 0 ("y"))))).slot).map
        (fun w => errIs w (GoErr.base 0 ("y"))) = some true ∧
    ((part000Handle (escWrapFn ("copy(src, dst)") [])
        (check { slot := none, panicking := none }
          (some (GoErr.base 0 ("y"))))).slot).bind unwrapErr
      = some (GoErr.base 0 ("y")) ∧
    ((v1ErrorfHandle ("copy(src, dst)") []
        (check { slot := none, panicking := none }
          (some (GoErr.base 0 ("y"))))).slot).map
        (fun w => errIs w (GoErr.base 0 ("y"))) = some false := by
  exact ⟨rfl, rfl, rfl⟩

/-- Claim C5, evaluated: with format `do(%s)` and argument `W`, a check
of the error `y` followed by the finalizer yields the message
`do(W): y` in the Escape revision, but `do([[W]]): y` in the
check/handle revision of handle.go, whose bare variadic forwarding
nests the argument slice twice. -/
theorem errorf_message_eval :
    ((runActivation [Ev.on (some (GoErr.base 0 ("y")))] []
        [⟨0, escWrapFn ("do(%s)") [FmtArg.s ("W")]⟩]).slot).map errMsg
      = some ("do(W): y") ∧
    ((v1ErrorfHandle ("do(%s)") [FmtArg.s ("W")]
        (check { slot := none, panicking := none }
          (some (GoErr.base 0 ("y"))))).slot).map errMsg
      = some ("do([[W]]): y") ∧
    ("do([[W]]): y" : String) ≠ ("do(W): y" : String) := by
  exact ⟨rfl, rfl, by decide⟩

/-- Counterexample to C6 as stated: in the check/handle revision of
handle.go, a bound error assigned by a normal, non-abrupt return is not
a `failure`, so the Errorf finalizer leaves it untouched instead of
applying the formatted wrap the claim requires. -/
theorem normal_return_not_wrapped :
    v1ErrorfHandle ("do(%s)") [FmtArg.s ("W")]
        { slot := some (GoErr.base 0 ("boom")), panicking := none }
      = { slot := some (GoErr.base 0 ("boom")), panicking := none } ∧
    some (GoErr.base 0 ("boom"))
      ≠ some (fmtErrorf ("do(%s): %w")
          [FmtArg.s ("W"), FmtArg.e (GoErr.base 0 ("boom"))]) := by
  exact ⟨rfl, by decide⟩

/-- Claim C6 as amended: the Escape revision's hatch and the part_000
Func revision's handle apply the configured transform whenever the
bound error is non-nil at finalizer time, whether it was set by the
guard or assigned by a normal return; the check/handle revision's
finalizer instead applies its transform only when the slot holds the
guard's `failure` marker, leaving a normally assigned error
unchanged. -/
theorem finalizer_transform_on_nonnil_amended :
    (∀ (e : GoErr) (format : String) (args : List FmtArg),
      (runActivation [Ev.assign (some e)] []
          [⟨0, escWrapFn format args⟩]).slot
        = some (fmtErrorf (format ++ ": %w") (args ++ [FmtArg.e e]))) ∧
    (∀ (e : GoErr) (fn : Option GoErr → Option GoErr),
      isFailure e = false →
      part000Handle fn { slot := some e, panicking := none }
        = { slot := fn (some e), panicking := none }) ∧
    (∀ (format : String) (args : List FmtArg) (s : CState),
      slotIsFailure s.slot = false →
      v1ErrorfHandle format args s = s) := by
  refine ⟨?_, ?_, ?_⟩
  · intro e format args
    rfl
  · intro e fn he
    cases e with
    | base n m => rfl
    | wrapped m c => rfl
    | failure f => simp [isFailure] at he
  · intro format args s hs
    obtain ⟨sl, pk⟩ := s
    cases sl with
    | none => rfl
    | some e =>
        cases e with
        | base n m => rfl
        | wrapped m c => rfl
        | failure f => simp [slotIsFailure] at hs

/-- Witness for C6's amended claim: the part_000 finalizer runs the
configured function on a normally assigned, non-failure error. -/
theorem finalizer_transform_on_nonnil_amended_witness :
    part000Handle (fun s => s)
        { slot := some (GoErr.base 2 ("x")), panicking := none }
      = { slot := (fun (s : Option GoErr) => s) (some (GoErr.base 2 ("x"))),
          panicking := none } :=
  finalizer_transform_on_nonnil_amended.2.1 (GoErr.base 2 ("x"))
    (fun s => s) rfl

/-- The hatch never changes the slot except through the fns loop. -/
theorem hatch_slot (fns : List ChainAct) (s : RunState) :
    (hatch fns s).slot = (runFns fns.reverse s.slot).1 := by
  by_cases h : s.pnc <;> simp [hatch, h]

/-- A hatch with no fns keeps a non-nil slot and adds nothing to the
trace. -/
theorem hatch_nil (s : RunState) (hs : s.slot ≠ none) :
    (hatch [] s).trace = s.trace ∧ (hatch [] s).slot = s.slot := by
  obtain ⟨e, he⟩ := Option.ne_none_iff_exists'.mp hs
  by_cases h : s.pnc <;> simp [hatch, h, he, runFns]

/-- Claim C7: a non-nil error passed to the guard is surfaced.  In the
Escape revision, if no deferred item and no configured fn clears the
slot, the bound error after the full activation is non-nil; and in the
check/handle revision the finalizer always replaces a checked failure
by the wrapper's result, which is a present (non-nil) error for any
wrapper. -/
theorem error_surfaced_nonnil :
    (∀ (e : GoErr) (defs : List DefItem) (fns : List ChainAct),
      (∀ d ∈ defs, DefPreserves d) → (∀ c ∈ fns, Preserves c.eff) →
      (runActivation [Ev.on (some e)] defs fns).slot ≠ none) ∧
    (∀ (w : GoErr → String → List FmtArg → GoErr) (format : String)
        (args : List FmtArg) (e : GoErr),
      (errorfHandle w format args
          (check { slot := none, panicking := none } (some e))).slot
        = some (w e format (goVariadicPass args))) := by
  constructor
  · intro e defs fns hdefs hfns
    have hdef : (runDefers defs
        (runBody [Ev.on (some e)]
          { slot := none, pnc := false, panicking := none,
            raised := 0, trace := [], hatchRuns := 0 })).slot ≠ none :=
      runDefers_pres defs _ hdefs (by simp [runBody, onStep])
    rw [runActivation, hatch_slot, runFns_eq_runChains]
    exact (runChains_all_fire fns.reverse _
      (fun c hc => hfns c (List.mem_reverse.mp hc)) hdef).2
  · intro w format args e
    simp [check, errorfHandle]

/-- Witness for C7: a checked error with nothing registered ends
non-nil. -/
theorem error_surfaced_nonnil_witness :
    (runActivation [Ev.on (some (GoErr.base 0 ("c")))] [] []).slot
      ≠ none :=
  error_surfaced_nonnil.1 (GoErr.base 0 ("c")) [] []
    (fun d hd => absurd hd (List.not_mem_nil d))
    (fun c hc => absurd hc (List.not_mem_nil c))

/-- Claim C8: a nil error is a no-op for both guards — `Escape.On` and
the check closure return the state exactly as it was, raising nothing
and touching neither the slot nor the in-flight flag. -/
theorem check_nil_noop :
    (∀ s : RunState, onStep s none = s) ∧
    (∀ s : CState, check s none = s) :=
  ⟨fun _ => rfl, fun _ => rfl⟩

/-- Claim C9: a constructor given a nil slot pointer substitutes a
freshly allocated shared cell, and the pointer the guard and finalizer
capture is valid in the resulting heap, so no operation dereferences a
nil pointer: in particular every `On` call against it succeeds. -/
theorem nil_slot_substituted (h : Heap) (err : Option Nat)
    (hv : ∀ p, err = some p → p < h.cells.length) :
    ((escErrorCtor h err).2 < (escErrorCtor h err).1.cells.length ∧
      ∀ ce, (heapOn (escErrorCtor h err).1
          (escErrorCtor h err).2 ce).isSome) ∧
    ((funcCtor h err).2 < (funcCtor h err).1.cells.length ∧
      ∀ ce, (heapOn (funcCtor h err).1 (funcCtor h err).2 ce).isSome) := by
  have key : ∀ (hh : Heap) (q : Nat), q < hh.cells.length →
      ∀ ce, (heapOn hh q ce).isSome := by
    intro hh q hq ce
    cases ce with
    | none => rfl
    | some e =>
        have hget := List.getElem?_eq_getElem hq
        simp [heapOn, hget]
  have hbound : (escErrorCtor h err).2
      < (escErrorCtor h err).1.cells.length := by
    cases err with
    | none => simp [escErrorCtor]
    | some p => simpa [escErrorCtor] using hv p rfl
  have hbound2 : (funcCtor h err).2 < (funcCtor h err).1.cells.length := by
    cases err with
    | none => simp [funcCtor]
    | some p => simpa [funcCtor] using hv p rfl
  exact ⟨⟨hbound, key _ _ hbound⟩, ⟨hbound2, key _ _ hbound2⟩⟩

/-- Witness for C9: constructing from an empty heap and a nil pointer
allocates the shared cell. -/
theorem nil_slot_substituted_witness :
    ((escErrorCtor { cells := [] } none).2
        < (escErrorCtor { cells := [] } none).1.cells.length ∧
      ∀ ce, (heapOn (escErrorCtor { cells := [] } none).1
          (escErrorCtor { cells := [] } none).2 ce).isSome) ∧
    ((funcCtor { cells := [] } none).2
        < (funcCtor { cells := [] } none).1.cells.length ∧
      ∀ ce, (heapOn (funcCtor { cells := [] } none).1
          (funcCtor { cells := [] } none).2 ce).isSome) :=
  nil_slot_substituted { cells := [] } none
    (fun _ hp => Option.noConfusion hp)

/-- Counterexample to C10 as stated: after the guard triggers, a chain
action that nils the slot breaks the invariant — here the
later-registered action (id 2) fires first during the unwind and clears
the slot, so the earlier-registered action (id 1) observes a nil slot
and does not fire, and the slot reaches the finalizer nil. -/
theorem chain_nil_breaks_invariant :
    (runActivation [Ev.on (some (GoErr.base 0 ("a")))]
        [DefItem.chain ⟨1, fun s => s⟩, DefItem.chain ⟨2, fun _ => none⟩]
        []).trace = [2] ∧
    (1 : Nat) ∉ (runActivation [Ev.on (some (GoErr.base 0 ("a")))]
        [DefItem.chain ⟨1, fun s => s⟩, DefItem.chain ⟨2, fun _ => none⟩]
        []).trace ∧
    (runActivation [Ev.on (some (GoErr.base 0 ("a")))]
        [DefItem.chain ⟨1, fun s => s⟩, DefItem.chain ⟨2, fun _ => none⟩]
        []).slot = none := by
  refine ⟨rfl, ?_, rfl⟩
  intro hmem
  have htr : (runActivation [Ev.on (some (GoErr.base 0 ("a")))]
      [DefItem.chain ⟨1, fun s => s⟩, DefItem.chain ⟨2, fun _ => none⟩]
      []).trace = [2] := rfl
  rw [htr] at hmem
  simp at hmem

/-- Claim C10 as amended: from the moment the guard triggers on a
non-nil error until the finalizer runs, the bound error slot stays
non-nil provided no chain action run in between clears it; under that
proviso every deferred chain action observes a non-nil slot and fires,
latest registered first, and the slot is still non-nil when the
finalizer completes. -/
theorem slot_nonnil_during_unwind_amended (e : GoErr)
    (regs : List ChainAct) (hpres : ∀ c ∈ regs, Preserves c.eff) :
    (runActivation [Ev.on (some e)] (regs.map DefItem.chain) []).trace
        = (regs.reverse).map ChainAct.id ∧
      (runActivation [Ev.on (some e)] (regs.map DefItem.chain) []).slot
        ≠ none := by
  have hrd := runDefers_chains regs
    (runBody [Ev.on (some e)]
      { slot := none, pnc := false, panicking := none,
        raised := 0, trace := [], hatchRuns := 0 })
    hpres (by simp [runBody, onStep])
  have hh := hatch_nil
    (runDefers (regs.map DefItem.chain)
      (runBody [Ev.on (some e)]
        { slot := none, pnc := false, panicking := none,
          raised := 0, trace := [], hatchRuns := 0 }))
    hrd.1
  constructor
  · rw [runActivation, hh.1, hrd.2]
    simp [runBody, onStep]
  · rw [runActivation, hh.2]
    exact hrd.1

/-- Witness for C10's amended claim: one slot-preserving chain action
fires and the slot survives to the finalizer. -/
theorem slot_nonnil_during_unwind_amended_witness :
    (runActivation [Ev.on (some (GoErr.base 0 ("b")))]
        (([⟨3, fun s => s⟩] : List ChainAct).map DefItem.chain) []).trace
        = ((([⟨3, fun s => s⟩] : List ChainAct)).reverse).map ChainAct.id ∧
      (runActivation [Ev.on (some (GoErr.base 0 ("b")))]
        (([⟨3, fun s => s⟩] : List ChainAct).map DefItem.chain) []).slot
        ≠ none :=
  slot_nonnil_during_unwind_amended (GoErr.base 0 ("b"))
    [⟨3, fun s => s⟩]
    (by
      intro c hc x hx
      rcases List.mem_cons.mp hc with h | h
      · rw [h]; exact hx
      · cases h)

end Handle
